import Mathlib

/-!
Shallow embedding of `src/js_dash_table/assets/dash-table.js` (DashTable),
the dataset view pipeline and change-tracking engine for interactive tables:
the three-tier cache (original / filtered / virtual), the default filter
routine, the multi-key sort comparator, pagination, selection toggling and
the dirty-flag bookkeeping of `TableState`.

Modelling conventions:
* JavaScript numbers are modelled as exact fractions (`JNum`: an integer
  numerator and a positive natural denominator, compared by cross
  multiplication); every comparison the claims exercise involves short
  decimal literals, whose ordering agrees with IEEE doubles.
* JavaScript strings are compared code unit by code unit; we compare the
  character lists of Lean strings, which agrees for all BMP strings.
* Fallible code (`throw` / rejected promises) is modelled with `Except`.
* `Array.prototype.sort` (ES2019+: stable, comparator-driven) is modelled
  by a stable insertion sort; for a consistent comparator this is the
  unique stable sorted permutation, hence extensionally the JS sort.
-/

namespace DashTable

/-- Decidable equality for `Except`, used to evaluate the filter pipeline
on concrete inputs. -/
instance instDecEqExcept {ε α : Type} [DecidableEq ε] [DecidableEq α] :
    DecidableEq (Except ε α)
  | Except.error e, Except.error f =>
    if h : e = f then Decidable.isTrue (congrArg Except.error h)
    else Decidable.isFalse (fun hh => h (Except.error.inj hh))
  | Except.error _, Except.ok _ => Decidable.isFalse (fun hh => Except.noConfusion hh)
  | Except.ok _, Except.error _ => Decidable.isFalse (fun hh => Except.noConfusion hh)
  | Except.ok a, Except.ok b =>
    if h : a = b then Decidable.isTrue (congrArg Except.ok h)
    else Decidable.isFalse (fun hh => h (Except.ok.inj hh))

/-- Quote characters, defined by code point to keep the text plain. -/
def dquoteChar : Char := Char.ofNat 34

/-- The apostrophe character (code point 39). -/
def squoteChar : Char := Char.ofNat 39

/-- An exact fraction standing in for a JavaScript number.  The
denominator is always instantiated with a positive power of ten; ordering
is decided by cross multiplication, so no normalisation is needed. -/
structure JNum where
  num : Int
  den : Nat
deriving DecidableEq

/-- Numeric strict order on JavaScript numbers (denominators positive). -/
def jnumLt (a b : JNum) : Bool :=
  a.num * (b.den : Int) < b.num * (a.den : Int)

/-- Numeric non-strict order on JavaScript numbers. -/
def jnumLe (a b : JNum) : Bool :=
  a.num * (b.den : Int) ≤ b.num * (a.den : Int)

/-- An integer-valued JavaScript number. -/
def jint (n : Int) : JNum := ⟨n, 1⟩

/-- A JavaScript value as stored in a table row: a number or a string. -/
inductive JVal where
  | num (q : JNum)
  | str (s : String)
deriving DecidableEq

/-- A table row: a JavaScript object, i.e. an insertion-ordered association
list from field names to values. -/
abbrev Row := List (String × JVal)

/-- `item[key]` on a row object: `none` models JavaScript `undefined`. -/
def rowGet (r : Row) (k : String) : Option JVal :=
  (r.find? (fun p => p.1 = k)).map (fun p => p.2)

/-- `item[key] = v` on a row object: overwrite in place when the key exists
(keeping its position), otherwise append the new key at the end, matching
JavaScript property insertion order. -/
def rowSet (r : Row) (k : String) (v : JVal) : Row :=
  if (r.find? (fun p => p.1 = k)).isSome then
    r.map (fun p => if p.1 = k then (k, v) else p)
  else
    r ++ [(k, v)]

/-- Strict lexicographic order on lists over a linear order, comparing
element by element; a proper prefix is smaller.  This is how JavaScript
compares two strings (code unit by code unit). -/
def lexLt {α : Type} [LinearOrder α] : List α → List α → Bool
  | [], [] => false
  | [], _ :: _ => true
  | _ :: _, [] => false
  | a :: as, b :: bs => if a < b then true else if b < a then false else lexLt as bs

/-- JavaScript `s < t` for two strings: lexicographic on code units. -/
def strLt (s t : String) : Bool := lexLt s.data t.data

/-- Numeric value of a decimal digit character. -/
def digitsToNat (cs : List Char) : Nat :=
  cs.foldl (fun acc c => acc * 10 + (c.toNat - 48)) 0

/-- `ToNumber` applied to a string operand, restricted to plain decimal
literals (optional sign, integer part, optional fraction), which is the
shape of every numeric filter token; any other string yields `none`,
modelling `NaN`. -/
def parseNum (s : String) : Option JNum :=
  let cs := s.data
  let (neg, cs) :=
    match cs with
    | c :: rest => if c = '-' then (true, rest) else if c = '+' then (false, rest) else (false, cs)
    | [] => (false, cs)
  let intPart := cs.takeWhile Char.isDigit
  let rest := cs.dropWhile Char.isDigit
  let body : Option JNum :=
    match rest with
    | [] => if intPart.isEmpty then none else some (jint (digitsToNat intPart))
    | c :: frac =>
      if c = '.' && frac.all Char.isDigit && !(intPart.isEmpty && frac.isEmpty) then
        some ⟨digitsToNat intPart * 10 ^ frac.length + digitsToNat frac, 10 ^ frac.length⟩
      else
        none
  body.map (fun q => if neg then ⟨-q.num, q.den⟩ else q)

/-- Whitespace for the purposes of `\s` in the tokenizer regex. -/
def jsSpace (c : Char) : Bool :=
  c = ' ' || c = '\t' || c = '\n' || c = '\r'

/-- `String.prototype.trim`: strip whitespace from both ends (restricted
to the ASCII whitespace the filter strings can contain). -/
def jsTrim (s : String) : String :=
  String.mk (((s.data.dropWhile jsSpace).reverse.dropWhile jsSpace).reverse)

/-- One scan step of `filter.match(/"[^"]*"|\S+/g)`: skip whitespace; at a
double quote with a later closing quote take the whole quoted run
(whitespace included); otherwise take the maximal non-whitespace run.  The
fuel argument only bounds the recursion depth: every step consumes at
least one character, so fuel equal to the character count is never
exhausted. -/
def jsTokensGo : Nat → List Char → List (List Char)
  | 0, _ => []
  | _, [] => []
  | fuel + 1, c :: rest =>
    if jsSpace c then jsTokensGo fuel rest
    else if c = dquoteChar && rest.contains dquoteChar then
      (dquoteChar :: rest.takeWhile (fun x => x ≠ dquoteChar) ++ [dquoteChar]) ::
        jsTokensGo fuel ((rest.dropWhile (fun x => x ≠ dquoteChar)).drop 1)
    else
      ((c :: rest).takeWhile (fun x => !jsSpace x)) ::
        jsTokensGo fuel ((c :: rest).dropWhile (fun x => !jsSpace x))

/-- `filter.match(/"[^"]*"|\S+/g)`: the token list of a filter string
(`[]` models the `null` that `match` returns when nothing matches). -/
def jsTokens (s : String) : List String :=
  (jsTokensGo s.data.length s.data).map (fun cs => String.mk cs)

/-- `key.replace(/^["']|["']$/g, '')`: strip one leading and one trailing
single or double quote from the key token. -/
def stripQuotes (s : String) : String :=
  let isQ : Char → Bool := fun c => c = dquoteChar || c = squoteChar
  let cs := s.data
  let cs := match cs with
    | c :: rest => if isQ c then rest else c :: rest
    | [] => []
  let cs := match cs.reverse with
    | c :: rest => if isQ c then rest.reverse else cs
    | [] => cs
  String.mk cs

/-- JavaScript `x < v` where `x` is a row field (possibly `undefined`) and
`v` is the literal filter token: string/string compares lexicographically,
otherwise both sides convert to numbers and `NaN` makes it false. -/
def jsLtFV : Option JVal → String → Bool
  | some (JVal.str s), v => strLt s v
  | some (JVal.num q), v =>
    match parseNum v with
    | some w => jnumLt q w
    | none => false
  | none, _ => false

/-- JavaScript `x > v` against the literal filter token. -/
def jsGtFV : Option JVal → String → Bool
  | some (JVal.str s), v => strLt v s
  | some (JVal.num q), v =>
    match parseNum v with
    | some w => jnumLt w q
    | none => false
  | none, _ => false

/-- JavaScript `x <= v` against the literal filter token. -/
def jsLeFV : Option JVal → String → Bool
  | some (JVal.str s), v => !strLt v s
  | some (JVal.num q), v =>
    match parseNum v with
    | some w => jnumLe q w
    | none => false
  | none, _ => false

/-- JavaScript `x >= v` against the literal filter token. -/
def jsGeFV : Option JVal → String → Bool
  | some (JVal.str s), v => !strLt s v
  | some (JVal.num q), v =>
    match parseNum v with
    | some w => jnumLe w q
    | none => false
  | none, _ => false

/-- JavaScript `x === v` where `v` is the literal (string) token: strict
equality never coerces, so only a string field can compare equal. -/
def jsStrictEqFV : Option JVal → String → Bool
  | some (JVal.str s), v => s = v
  | _, _ => false

/-- The operator dispatch of the callback inside `TABLE_FILTERS.default`;
an unknown operator throws (per row). -/
def evalOp (op : String) (x : Option JVal) (v : String) : Except Unit Bool :=
  if op = ">" then Except.ok (jsGtFV x v)
  else if op = ">=" then Except.ok (jsGeFV x v)
  else if op = "<" then Except.ok (jsLtFV x v)
  else if op = "<=" then Except.ok (jsLeFV x v)
  else if op = "=" || op = "==" then Except.ok (jsStrictEqFV x v)
  else if op = "!=" || op = "!==" then Except.ok (!jsStrictEqFV x v)
  else Except.error ()

/-- `data.filter((item) => ...)` with a callback that can throw: the throw
escapes `Array.prototype.filter`, so the whole call fails. -/
def filterRows (key op value : String) : List Row → Except Unit (List Row)
  | [] => Except.ok []
  | r :: rs =>
    match evalOp op (rowGet r key) value with
    | Except.error _ => Except.error ()
    | Except.ok b =>
      match filterRows key op value rs with
      | Except.error _ => Except.error ()
      | Except.ok rest => Except.ok (if b then r :: rest else rest)

/-- `TABLE_FILTERS.default`: tokenize the filter text; any token count
other than three fails (zero tokens model the `TypeError` of reading
`length` on the `null` from `match`); strip quotes from the key and filter
the rows, where an unknown operator throws inside the per-row callback. -/
def defaultFilter (filter : String) (data : List Row) : Except Unit (List Row) :=
  match jsTokens filter with
  | [key, op, value] => filterRows (stripQuotes key) op value data
  | _ => Except.error ()

/-- JavaScript `x < y` between two row fields, as used by the sort
comparator: two strings compare lexicographically; otherwise both operands
convert to numbers (`undefined` and unparseable strings become `NaN`,
making every comparison false). -/
def jvLtVV : Option JVal → Option JVal → Bool
  | some (JVal.str s), some (JVal.str t) => strLt s t
  | some (JVal.num a), some (JVal.num b) => jnumLt a b
  | some (JVal.num a), some (JVal.str t) =>
    match parseNum t with
    | some w => jnumLt a w
    | none => false
  | some (JVal.str s), some (JVal.num b) =>
    match parseNum s with
    | some w => jnumLt w b
    | none => false
  | _, _ => false

/-- One entry of the sort specification `config.sort_by`. -/
structure Sorter where
  key : String
  order : String
deriving DecidableEq

/-- The multi-key comparator of `TableState.sortData`: walk the sort
specification in order; the first key on which the rows differ decides the
pair (`-1`/`1` flipped when the effective order is not `"asc"`); if every
key ties the comparator returns `0`.  `sorter.order || "asc"` makes an
empty order string behave as `"asc"`. -/
def cmpRows : List Sorter → Row → Row → Int
  | [], _, _ => 0
  | s :: rest, first, second =>
    let ord := if s.order = "" then "asc" else s.order
    if jvLtVV (rowGet first s.key) (rowGet second s.key) then
      if ord = "asc" then -1 else 1
    else if jvLtVV (rowGet second s.key) (rowGet first s.key) then
      if ord = "asc" then 1 else -1
    else
      cmpRows rest first second

/-- The non-strict row order induced by the comparator. -/
def rowLe (sortBy : List Sorter) (a b : Row) : Prop :=
  cmpRows sortBy a b ≤ 0

instance rowLeDecidable (sortBy : List Sorter) : DecidableRel (rowLe sortBy) :=
  fun a b => inferInstanceAs (Decidable (cmpRows sortBy a b ≤ 0))

/-- `TableState.sortData`: `Array.prototype.sort` with the multi-key
comparator.  ES2019 requires the sort to be stable, so it is modelled by a
stable insertion sort; for a consistent comparator this is the unique
stable sorted permutation, hence extensionally the JavaScript sort. -/
def sortData (sortBy : List Sorter) (l : List Row) : List Row :=
  List.insertionSort (rowLe sortBy) l

/-- The textbook specification of a stable sort: tag each row with its
position, sort by comparator-then-position, and drop the tags. -/
def rowLeIdx (sortBy : List Sorter) (p q : Nat × Row) : Prop :=
  cmpRows sortBy p.2 q.2 < 0 ∨ (cmpRows sortBy p.2 q.2 = 0 ∧ p.1 ≤ q.1)

instance rowLeIdxDecidable (sortBy : List Sorter) : DecidableRel (rowLeIdx sortBy) :=
  fun _ _ => inferInstanceAs (Decidable (_ ∨ _))

/-- Stable-sort reference implementation used to state stability. -/
def stableSortSpec (sortBy : List Sorter) (l : List Row) : List Row :=
  (List.insertionSort (rowLeIdx sortBy) l.enum).map Prod.snd

/-- `TableState.getLastPage`, for a virtual tier of length `virtualLen`:
`pageCount` is `1` when the length equals the page size, else the
truncated quotient, incremented when the division has a remainder; the
result is `pageCount - 1` (an integer, so it can be `-1`).  Faithful for
`pageSize > 0`, which the configuration guarantees (default 10). -/
def getLastPage (virtualLen pageSize : Nat) : Int :=
  let pageCount : Int := if virtualLen = pageSize then 1 else (virtualLen / pageSize : Nat)
  let pageCount := if virtualLen % pageSize ≠ 0 then pageCount + 1 else pageCount
  pageCount - 1

/-- The sort-specification update of `TableState.clickColumn` for a click
on the header whose column name is `key`.  When the clicked column is
already sorted descending, the source executes
`sortBy.splice(sortBy.indexOf(includes), 1)`; `includes` is a number and
the array holds objects, so `indexOf` returns `-1` and `splice(-1, 1)`
removes the LAST entry of the specification, modelled by `dropLast`. -/
def clickColumnSort (sortBy : List Sorter) (key : String) (sortMode : String) : List Sorter :=
  match sortBy.findIdx? (fun sorter => sorter.key = key) with
  | some i =>
    let sorter := sortBy.getD i ⟨"", ""⟩
    if sorter.order = "desc" then
      sortBy.dropLast
    else
      sortBy.set i ⟨sorter.key, "desc"⟩
  | none =>
    let sortBy := if sortMode = "single" then [] else sortBy
    sortBy ++ [⟨key, "asc"⟩]

/-- The decimal digits of `n`, least significant first; fuel-based so that
it reduces in the kernel (fuel `n` suffices since `n / 10 < n`). -/
def natDigitsRev : Nat → Nat → List Nat
  | 0, _ => []
  | fuel + 1, n => if n = 0 then [] else n % 10 :: natDigitsRev fuel (n / 10)

/-- The string `String(n)` as its list of digit values, most significant
first (the decimal notation JavaScript uses as default sort key). -/
def jsKey (n : Nat) : List Nat :=
  if n = 0 then [0] else (natDigitsRev n n).reverse

/-- The comparison used by `selected.sort()` with no comparator:
JavaScript converts both numbers to strings and compares them
lexicographically; on decimal digit strings that is exactly the
lexicographic order of the digit lists. -/
def jsStrLeNat (a b : Nat) : Prop :=
  lexLt (jsKey b) (jsKey a) = false

instance jsStrLeNatDecidable : DecidableRel jsStrLeNat :=
  fun _ _ => inferInstanceAs (Decidable (_ = false))

/-- `Array.prototype.sort()` (no comparator) on an array of numbers:
stable sort by the lexicographic order of the decimal strings. -/
def jsSortNat (l : List Nat) : List Nat :=
  List.insertionSort jsStrLeNat l

/-- `TableState.updateSelections`: toggle `index` in the selection list.
If present, remove it (first occurrence); otherwise clear the list unless
the mode is `"multi"`, and append the index when the mode is `"single"`
or `"multi"`.  Every path ends with `selected.sort()`, the comparator-less
JavaScript sort. -/
def updateSelections (selected : List Nat) (index : Nat) (mode : String) : List Nat :=
  if index ∈ selected then
    jsSortNat (selected.erase index)
  else
    let selected := if mode ≠ "multi" then [] else selected
    let selected := if mode = "single" ∨ mode = "multi" then selected ++ [index] else selected
    jsSortNat selected

/-- A column descriptor (the fields the engine reads and synthesizes). -/
structure Column where
  id : String
  name : String
  visible : Bool
  selectable : Bool
  format_namespace : String
  format : String
deriving DecidableEq

/-- The slice of `TableState` that the dataset pipeline reads and writes:
the view configuration, the three dataset tiers, the filter component of
the memoization key `lastVirtualization` and the `invalid` class of the
filter element, and the two dirty flags.  The empty string models an
absent (`undefined`) filter text, as in `this.config.filter || ""`. -/
structure TState where
  filterText : String
  sort_by : List Sorter
  page : Nat
  page_size : Nat
  row_index_key : String
  selected_rows : List Nat
  selected_columns : List Nat
  columns_original : List Column
  columns_virtual : List Column
  format_namespace : String
  format : String
  original : List Row
  filtered : List Row
  virtual : List Row
  lastFilter : String
  invalid : Bool
  pendingConfigChange : Bool
  pendingHeaderChange : Bool
deriving DecidableEq

/-- `TableState.updateColumns`: rebuild the virtual column list from the
original columns (when the pass used the unfiltered dataset) or by
inference from the keys of the first filtered row; when identity is not
preserved, write sequential row indices into every filtered row; prune
column selections whose referenced column name disappeared; raise the
header flag when the ordered name list changed (compared via the joined
`toString` form, as the source does); and, when identity was not
preserved, clear the row selection set and raise the config flag. -/
def updateColumns (original : Bool) (s : TState) : TState :=
  let originalColumns := s.columns_virtual.map (fun c => c.name)
  let stage : TState × Bool :=
    if original then
      ({ s with columns_virtual := s.columns_original }, true)
    else
      let keys0 := match s.filtered with
        | [] => []
        | first :: _ => first.map (fun (p : String × JVal) => p.1)
      let indexPreserved := match s.filtered with
        | [] => false
        | first :: _ => (rowGet first s.row_index_key).isSome
      let filtered2 := if indexPreserved then s.filtered
        else s.filtered.enum.map (fun p => rowSet p.2 s.row_index_key (JVal.num (jint p.1)))
      let newColumns := if keys0.isEmpty then s.columns_original.map (fun c => c.name) else keys0
      let virtualCols := (newColumns.filter (fun n => n ≠ s.row_index_key)).map (fun n =>
        match s.columns_original.reverse.find? (fun (c : Column) => c.name = n) with
        | some c => c
        | none => ⟨n, n, true, true, s.format_namespace, s.format⟩)
      ({ s with filtered := filtered2, columns_virtual := virtualCols }, indexPreserved)
  let s1 := stage.1
  let finalColumns := s1.columns_virtual.map (fun c => c.name)
  let keep : Nat → Bool := fun idx =>
    match originalColumns.get? idx with
    | some nm => finalColumns.contains nm
    | none => false
  let s2 := { s1 with
    selected_columns := s1.selected_columns.filter keep,
    pendingHeaderChange := s1.pendingHeaderChange
      || s1.selected_columns.any (fun idx => !keep idx)
      || (String.intercalate "," originalColumns ≠ String.intercalate "," finalColumns) }
  if stage.2 then s2
  else { s2 with selected_rows := [], pendingConfigChange := true }

/-- The filter stage of `TableState.updateData` for one recompute cycle,
with the configured filter routine passed in as `ff` (the
namespace/action lookup of the source resolves to such a function,
`TABLE_FILTERS.default` by default).
The guard `this.lastVirtualization !== newVirtualization` compares a
stored array against a freshly allocated one by object identity and is
therefore always true; the inner guard compares the stored filter string
against the trimmed filter text by value.  On an empty (trimmed) filter
the original tier is copied and the pass counts as unfiltered; on filter
success the routine's rows become the filtered tier; on throw/reject the
pass falls back to a copy of the original tier, records the invalid
state, and stores an empty memo entry.  A length change resets the page
to 0 and raises the config flag.  Finally the virtual tier is rebuilt
from a copy of the filtered tier, sorted when a sort specification is
present.  The model is a total function: no exception escapes. -/
def updateDataFilterStage (ff : String → List Row → Except Unit (List Row))
    (s : TState) : TState :=
  let originalLength := s.filtered.length
  let filter := jsTrim s.filterText
  if s.lastFilter ≠ filter then
    let stage : TState × Bool × String :=
      if filter = "" then
        ({ s with filtered := s.original, invalid := false }, true, s.filterText)
      else
        match ff filter s.original with
        | Except.ok rows => ({ s with filtered := rows, invalid := false }, false, filter)
        | Except.error _ => ({ s with filtered := s.original, invalid := true }, true, "")
    let s1 := updateColumns stage.2.1 stage.1
    let s2 :=
      if originalLength ≠ s1.filtered.length then
        { s1 with page := 0, pendingConfigChange := true }
      else s1
    { s2 with lastFilter := stage.2.2 }
  else s

/-- The full cycle: the filter stage above, then the unconditional rebuild
of the virtual tier from a copy of the filtered tier, sorted when a sort
specification is present. -/
def updateData (ff : String → List Row → Except Unit (List Row)) (s : TState) : TState :=
  let s2 := updateDataFilterStage ff s
  { s2 with virtual := if s2.sort_by.isEmpty then s2.filtered else sortData s2.sort_by s2.filtered }

/-! ### Order-theoretic facts about the lexicographic comparison -/

theorem lexLt_irrefl {α : Type} [LinearOrder α] : ∀ l : List α, lexLt l l = false
  | [] => rfl
  | a :: as => by simp [lexLt, lt_irrefl, lexLt_irrefl as]

theorem lexLt_asymm {α : Type} [LinearOrder α] :
    ∀ {l₁ l₂ : List α}, lexLt l₁ l₂ = true → lexLt l₂ l₁ = false
  | [], [], h => by simp [lexLt] at h
  | [], _ :: _, _ => rfl
  | _ :: _, [], h => by simp [lexLt] at h
  | a :: as, b :: bs, h => by
    by_cases hab : a < b
    · have hba : ¬ b < a := lt_asymm hab
      simp [lexLt, hba, hab]
    · by_cases hba : b < a
      · simp [lexLt, hab, hba] at h
      · simp only [lexLt, if_neg hab, if_neg hba] at h
        simp [lexLt, hab, hba, lexLt_asymm h]

theorem lexLt_eq_of_not {α : Type} [LinearOrder α] :
    ∀ {l₁ l₂ : List α}, lexLt l₁ l₂ = false → lexLt l₂ l₁ = false → l₁ = l₂
  | [], [], _, _ => rfl
  | [], _ :: _, h, _ => by simp [lexLt] at h
  | _ :: _, [], _, h => by simp [lexLt] at h
  | a :: as, b :: bs, h1, h2 => by
    by_cases hab : a < b
    · simp [lexLt, hab] at h1
    · by_cases hba : b < a
      · simp [lexLt, hba] at h2
      · simp only [lexLt, if_neg hab, if_neg hba] at h1 h2
        have : as = bs := lexLt_eq_of_not h1 h2
        have hv : a = b := le_antisymm (le_of_not_lt hba) (le_of_not_lt hab)
        rw [hv, this]

theorem lexLt_nil_right {α : Type} [LinearOrder α] : ∀ l : List α, lexLt l [] = false
  | [] => rfl
  | _ :: _ => rfl

theorem lexLt_trans {α : Type} [LinearOrder α] :
    ∀ {l₁ l₂ l₃ : List α}, lexLt l₁ l₂ = true → lexLt l₂ l₃ = true → lexLt l₁ l₃ = true
  | _, [], _, h1, _ => by rw [lexLt_nil_right] at h1; cases h1
  | _, _ :: _, [], _, h2 => by rw [lexLt_nil_right] at h2; cases h2
  | [], _ :: _, _ :: _, _, _ => rfl
  | a :: as, b :: bs, c :: cs, h1, h2 => by
    by_cases hab : a < b
    · by_cases hbc : b < c
      · simp [lexLt, lt_trans hab hbc]
      · by_cases hcb : c < b
        · simp [lexLt, hbc, hcb] at h2
        · have hv : b = c := le_antisymm (le_of_not_lt hcb) (le_of_not_lt hbc)
          have hac : a < c := lt_of_lt_of_le hab (le_of_eq hv)
          simp [lexLt, hac]
    · by_cases hba : b < a
      · simp [lexLt, hab, hba] at h1
      · have hv : a = b := le_antisymm (le_of_not_lt hba) (le_of_not_lt hab)
        simp only [lexLt, if_neg hab, if_neg hba] at h1
        by_cases hbc : b < c
        · have hac : a < c := lt_of_le_of_lt (le_of_eq hv) hbc
          simp [lexLt, hac]
        · by_cases hcb : c < b
          · simp [lexLt, hbc, hcb] at h2
          · simp only [lexLt, if_neg hbc, if_neg hcb] at h2
            subst hv
            have hv2 : a = c := le_antisymm (le_of_not_lt hcb) (le_of_not_lt hbc)
            subst hv2
            simp [lexLt, lt_irrefl, lexLt_trans h1 h2]

/-! ### The decimal key used by the comparator-less JavaScript sort -/

/-- Recombine little-endian digits into the number they denote. -/
def ofDigitsRev : List Nat → Nat
  | [] => 0
  | d :: ds => d + 10 * ofDigitsRev ds

theorem ofDigitsRev_natDigitsRev : ∀ fuel n : Nat, n ≤ fuel →
    ofDigitsRev (natDigitsRev fuel n) = n := by
  intro fuel
  induction fuel with
  | zero =>
    intro n hn
    have : n = 0 := Nat.le_zero.mp hn
    simp [this, natDigitsRev, ofDigitsRev]
  | succ fuel ih =>
    intro n hn
    by_cases h0 : n = 0
    · simp [h0, natDigitsRev, ofDigitsRev]
    · have hdiv : n / 10 ≤ fuel := by
        have : n / 10 < n := Nat.div_lt_self (Nat.pos_of_ne_zero h0) (by omega)
        omega
      simp only [natDigitsRev, if_neg h0, ofDigitsRev, ih (n / 10) hdiv]
      omega

theorem jsKey_inj : ∀ {m n : Nat}, jsKey m = jsKey n → m = n := by
  intro m n h
  by_cases hm : m = 0 <;> by_cases hn : n = 0
  · rw [hm, hn]
  · exfalso
    rw [jsKey, jsKey, if_pos hm, if_neg hn] at h
    have h2 : natDigitsRev n n = [0] := by
      have := congrArg List.reverse h
      simpa using this.symm
    have := ofDigitsRev_natDigitsRev n n (le_refl n)
    rw [h2] at this
    simp [ofDigitsRev] at this
    exact hn this.symm
  · exfalso
    rw [jsKey, jsKey, if_neg hm, if_pos hn] at h
    have h2 : natDigitsRev m m = [0] := by
      have := congrArg List.reverse h
      simpa using this
    have := ofDigitsRev_natDigitsRev m m (le_refl m)
    rw [h2] at this
    simp [ofDigitsRev] at this
    exact hm this.symm
  · rw [jsKey, jsKey, if_neg hm, if_neg hn] at h
    have h2 : natDigitsRev m m = natDigitsRev n n := by
      have := congrArg List.reverse h
      simpa using this
    have hm2 := ofDigitsRev_natDigitsRev m m (le_refl m)
    have hn2 := ofDigitsRev_natDigitsRev n n (le_refl n)
    rw [h2, hn2] at hm2
    exact hm2.symm

instance jsStrLeNatTotal : IsTotal Nat jsStrLeNat := by
  constructor
  intro a b
  by_cases h : lexLt (jsKey b) (jsKey a) = true
  · exact Or.inr (lexLt_asymm h)
  · exact Or.inl (Bool.eq_false_iff.mpr h)

instance jsStrLeNatTrans : IsTrans Nat jsStrLeNat := by
  constructor
  intro a b c h1 h2
  unfold jsStrLeNat at h1 h2 ⊢
  by_contra hc
  have hc2 : lexLt (jsKey c) (jsKey a) = true := Bool.eq_false_iff.not_left.mp hc
  by_cases hab : lexLt (jsKey a) (jsKey b) = true
  · have := lexLt_trans hc2 hab
    rw [this] at h2
    cases h2
  · have hab2 : lexLt (jsKey a) (jsKey b) = false := Bool.eq_false_iff.mpr hab
    have : jsKey b = jsKey a := lexLt_eq_of_not h1 hab2
    rw [this] at h2
    rw [hc2] at h2
    cases h2

instance jsStrLeNatAntisymm : IsAntisymm Nat jsStrLeNat := by
  constructor
  intro a b h1 h2
  exact jsKey_inj (lexLt_eq_of_not h2 h1)

theorem jsSortNat_sorted (l : List Nat) : (jsSortNat l).Sorted jsStrLeNat :=
  List.sorted_insertionSort jsStrLeNat l

theorem jsSortNat_perm (l : List Nat) : List.Perm (jsSortNat l) l :=
  List.perm_insertionSort jsStrLeNat l

theorem jsSortNat_eq_of_perm {l₁ l₂ : List Nat} (h : List.Perm l₁ l₂) :
    jsSortNat l₁ = jsSortNat l₂ :=
  List.eq_of_perm_of_sorted ((jsSortNat_perm l₁).trans (h.trans (jsSortNat_perm l₂).symm))
    (jsSortNat_sorted l₁) (jsSortNat_sorted l₂)

/-- Double toggle in multi mode lands on the sorted (in the sense of the
comparator-less JavaScript sort) version of the selection list. -/
theorem toggle_toggle_multi (S : List Nat) (i : Nat) (h1 : S.Nodup) :
    updateSelections (updateSelections S i "multi") i "multi" = jsSortNat S := by
  by_cases hmem : i ∈ S
  · have ht1 : updateSelections S i "multi" = jsSortNat (S.erase i) := by
      rw [updateSelections, if_pos hmem]
    have hnot : i ∉ updateSelections S i "multi" := by
      rw [ht1]
      intro hc
      exact h1.not_mem_erase ((jsSortNat_perm (S.erase i)).mem_iff.mp hc)
    rw [updateSelections, if_neg hnot, ht1]
    simp only [ne_eq, not_true_eq_false, if_false, if_true, or_true, reduceIte]
    exact jsSortNat_eq_of_perm
      (((jsSortNat_perm (S.erase i)).append_right [i]).trans
        ((List.perm_append_singleton i (S.erase i)).trans (List.perm_cons_erase hmem).symm))
  · have ht1 : updateSelections S i "multi" = jsSortNat (S ++ [i]) := by
      rw [updateSelections, if_neg hmem]
      simp
    have hin : i ∈ updateSelections S i "multi" := by
      rw [ht1]
      exact (jsSortNat_perm (S ++ [i])).mem_iff.mpr (by simp)
    rw [updateSelections, if_pos hin, ht1]
    refine jsSortNat_eq_of_perm ?h
    have hp2 : List.Perm ((jsSortNat (S ++ [i])).erase i) ((S ++ [i]).erase i) :=
      (jsSortNat_perm (S ++ [i])).erase i
    have he : (S ++ [i]).erase i = S := by
      rw [List.erase_append_right [i] hmem, List.erase_cons_head, List.append_nil]
    rw [he] at hp2
    exact hp2

/-- C8 (corrected).  In `"single"` mode the double toggle is not an
involution (see the counterexample); in `"multi"` mode it is, for any
duplicate-free selection list that is already in the order the code
maintains, namely the order of `Array.prototype.sort()` without a
comparator (lexicographic on the decimal strings of the indices):
`toggle(toggle(S, i, "multi"), i, "multi") = S`. -/
theorem c8_theorem (S : List Nat) (i : Nat) (h1 : S.Nodup) (h2 : jsSortNat S = S) :
    updateSelections (updateSelections S i "multi") i "multi" = S := by
  rw [toggle_toggle_multi S i h1, h2]

/-- C8 counterexample: in `"single"` mode, toggling index 5 twice on the
selection `[2]` yields `[]`, not `[2]`, so toggle is not its own inverse
for every valid mode. -/
theorem c8_counterexample :
    updateSelections (updateSelections [2] 5 "single") 5 "single" ≠ [2] := by decide

/-- C8 witness: the amended statement applied to the selection `[10, 2]`
(which is in the code's maintained order since the string `"10"` precedes
the string `"2"`) and index 7. -/
theorem c8_witness :
    updateSelections (updateSelections [10, 2] 7 "multi") 7 "multi" = [10, 2] :=
  c8_theorem [10, 2] 7 (by decide) (by decide)

/-- C9 (code bug).  Toggling 10 into the selection `{2}` must yield
ascending numeric order `[2, 10]` per the claim, but `selected.sort()`
with no comparator compares decimal strings, and `"10" < "2"`, so the
code produces `[10, 2]`. -/
theorem c9_theorem : updateSelections [2] 10 "multi" = [10, 2] := by decide

/-- C3 counterexample: on an empty virtual tier (`n = 0`, page size 10)
`getLastPage` returns `-1`, not the claimed `max 0 (ceil(0/10) - 1) = 0`. -/
theorem c3_counterexample : getLastPage 0 10 ≠ 0 := by decide

/-- Ceiling division identity: `(p*q + r + p - 1) / p` is `q` when the
remainder `r` is zero and `q + 1` otherwise. -/
theorem ceilDivAux (p q r : Nat) (hp : 0 < p) (hrlt : r < p) :
    (p * q + r + p - 1) / p = q + (if r = 0 then 0 else 1) := by
  by_cases hr0 : r = 0
  · rw [if_pos hr0, hr0]
    apply Nat.div_eq_of_lt_le
    · simp only [Nat.add_zero, Nat.mul_comm q p]
      omega
    · simp only [Nat.add_zero, Nat.add_mul, Nat.one_mul, Nat.mul_comm q p]
      omega
  · rw [if_neg hr0]
    apply Nat.div_eq_of_lt_le
    · simp only [Nat.add_mul, Nat.one_mul, Nat.mul_comm q p]
      omega
    · simp only [Nat.add_mul, Nat.one_mul, Nat.mul_comm q p]
      omega

/-- C3 (corrected).  For page size `p > 0`: when the virtual tier is
nonempty, `getLastPage n p = ceil(n/p) - 1 = max 0 (ceil(n/p) - 1)`
(computed with `ceil(n/p) = (n + p - 1) / p`), and in particular
`getLastPage 25 10 = 2`; but when the tier is empty the result is `-1`,
not `0`. -/
theorem c3_theorem (n p : Nat) (hp : 0 < p) :
    (0 < n → getLastPage n p = (((n + p - 1) / p : Nat) : Int) - 1 ∧
      getLastPage n p = max 0 ((((n + p - 1) / p : Nat) : Int) - 1)) ∧
    (n = 0 → getLastPage n p = -1) := by
  have hmod := Nat.div_add_mod n p
  have hlt := Nat.mod_lt n hp
  have hceil : ((n + p - 1) / p : Nat) = n / p + (if n % p = 0 then 0 else 1) := by
    have h2 := ceilDivAux p (n / p) (n % p) hp hlt
    rw [hmod] at h2
    exact h2
  constructor
  · intro hn
    have hcode : getLastPage n p = (((n + p - 1) / p : Nat) : Int) - 1 := by
      rw [hceil]
      by_cases heq : n = p
      · subst heq
        rw [getLastPage]
        simp [Nat.mod_self, Nat.div_self hp]
      · rw [getLastPage]
        simp only [if_neg heq]
        by_cases hr : n % p = 0
        · simp [hr]
        · simp [hr]
    have h1le : 1 ≤ ((n + p - 1) / p : Nat) := by
      rw [hceil]
      by_cases hr : n % p = 0
      · rcases Nat.eq_zero_or_pos (n / p) with h0 | h0
        · rw [h0] at hmod
          simp only [Nat.mul_zero, Nat.zero_add] at hmod
          omega
        · omega
      · simp [hr]
    refine ⟨hcode, ?hmax⟩
    rw [hcode]
    have hnn : (0 : Int) ≤ (((n + p - 1) / p : Nat) : Int) - 1 := by
      omega
    rw [max_eq_right hnn]
  · intro hn
    subst hn
    rw [getLastPage]
    have h1 : ¬ ((0 : Nat) = p) := by omega
    simp [h1, Nat.zero_mod, Nat.zero_div]

/-- C3 witness: 25 rows with page size 10 give last page
`ceil(25/10) - 1 = 2 = max 0 2`. -/
theorem c3_witness :
    getLastPage 25 10 = ((((25 + 10 - 1) / 10 : Nat) : Int) - 1) ∧
      getLastPage 25 10 = max 0 ((((25 + 10 - 1) / 10 : Nat) : Int) - 1) :=
  (c3_theorem 25 10 (by decide)).1 (by decide)

/-- C4 (code bug).  When the clicked column is already sorted descending
among other entries, the source runs
`sortBy.splice(sortBy.indexOf(includes), 1)` where `includes` is a
number, so `indexOf` over an array of objects yields `-1` and the LAST
entry is removed instead of the clicked column's entry: clicking `"a"` on
`[{key: "a", order: "desc"}, {key: "b", order: "asc"}]` removes the
`"b"` entry and leaves `[{key: "a", order: "desc"}]`. -/
theorem c4_theorem :
    clickColumnSort [⟨"a", "desc"⟩, ⟨"b", "asc"⟩] "a" "multi" = [⟨"a", "desc"⟩] ∧
      clickColumnSort [⟨"a", "asc"⟩] "a" "multi" = [⟨"a", "desc"⟩] ∧
      clickColumnSort [⟨"a", "asc"⟩] "b" "single" = [⟨"b", "asc"⟩] ∧
      clickColumnSort [⟨"a", "asc"⟩] "b" "multi" = [⟨"a", "asc"⟩, ⟨"b", "asc"⟩] := by
  refine ⟨?h1, ?h2, ?h3, ?h4⟩ <;> decide

/-! ### Totality, idempotence and stability of the comparator sort -/

theorem jnumLt_asymm {a b : JNum} (h : jnumLt a b = true) : jnumLt b a = false := by
  simp only [jnumLt, decide_eq_true_eq] at h
  simp only [jnumLt, decide_eq_false_iff_not]
  omega

theorem jvLtVV_asymm : ∀ x y : Option JVal, jvLtVV x y = true → jvLtVV y x = false
  | some (JVal.str _), some (JVal.str _), h => by
    simp only [jvLtVV, strLt] at h ⊢
    exact lexLt_asymm h
  | some (JVal.num _), some (JVal.num _), h => by
    simp only [jvLtVV] at h ⊢
    exact jnumLt_asymm h
  | some (JVal.num a), some (JVal.str t), h => by
    simp only [jvLtVV] at h ⊢
    cases hp : parseNum t with
    | some w =>
      rw [hp] at h
      exact jnumLt_asymm h
    | none =>
      rw [hp] at h
  | some (JVal.str t), some (JVal.num a), h => by
    simp only [jvLtVV] at h ⊢
    cases hp : parseNum t with
    | some w =>
      rw [hp] at h
      exact jnumLt_asymm h
    | none =>
      rw [hp] at h
  | none, some (JVal.num _), h => by simp [jvLtVV] at h
  | none, some (JVal.str _), h => by simp [jvLtVV] at h
  | none, none, h => by simp [jvLtVV] at h
  | some (JVal.num _), none, h => by simp [jvLtVV] at h
  | some (JVal.str _), none, h => by simp [jvLtVV] at h

/-- The comparator is antisymmetric under argument swap: swapping the rows
negates the result, because each per-key decision mirrors. -/
theorem cmpRows_mirror : ∀ (S : List Sorter) (a b : Row), cmpRows S b a = - cmpRows S a b
  | [], _, _ => by simp [cmpRows]
  | s :: rest, a, b => by
    by_cases h1 : jvLtVV (rowGet a s.key) (rowGet b s.key) = true
    · have h2 := jvLtVV_asymm _ _ h1
      rw [cmpRows, cmpRows]
      simp only [h1, h2, if_true, if_false, Bool.false_eq_true, reduceIte]
      by_cases ho : (if s.order = "" then "asc" else s.order) = "asc" <;> simp [ho]
    · have h1f : jvLtVV (rowGet a s.key) (rowGet b s.key) = false := by
        simp only [Bool.not_eq_true] at h1
        exact h1
      by_cases h2 : jvLtVV (rowGet b s.key) (rowGet a s.key) = true
      · rw [cmpRows, cmpRows]
        simp only [h1f, h2, if_true, if_false, Bool.false_eq_true, reduceIte]
        by_cases ho : (if s.order = "" then "asc" else s.order) = "asc" <;> simp [ho]
      · have h2f : jvLtVV (rowGet b s.key) (rowGet a s.key) = false := by
          simp only [Bool.not_eq_true] at h2
          exact h2
        rw [cmpRows, cmpRows]
        simp only [h1f, h2f, Bool.false_eq_true, reduceIte]
        exact cmpRows_mirror rest a b

theorem rowLe_total (S : List Sorter) (a b : Row) : rowLe S a b ∨ rowLe S b a := by
  unfold rowLe
  have := cmpRows_mirror S a b
  omega

theorem orderedInsert_head_cases {α : Type} (r : α → α → Prop) [DecidableRel r]
    (a : α) (l : List α) :
    (List.orderedInsert r a l).head? = some a ∨ (List.orderedInsert r a l).head? = l.head? := by
  cases l with
  | nil => exact Or.inl rfl
  | cons b m =>
    by_cases h : r a b
    · exact Or.inl (by simp [List.orderedInsert, h])
    · exact Or.inr (by simp [List.orderedInsert, h])

theorem chain'_orderedInsert {α : Type} (r : α → α → Prop) [DecidableRel r]
    (htot : ∀ x y, r x y ∨ r y x) (a : α) :
    ∀ l : List α, l.Chain' r → (List.orderedInsert r a l).Chain' r
  | [], _ => by simp
  | b :: m, h => by
    by_cases hr : r a b
    · simp only [List.orderedInsert, if_pos hr]
      exact List.chain'_cons.mpr ⟨hr, h⟩
    · simp only [List.orderedInsert, if_neg hr]
      have hm : m.Chain' r := (List.chain'_cons'.mp h).2
      have ih := chain'_orderedInsert r htot a m hm
      apply List.chain'_cons'.mpr
      refine ⟨?head, ih⟩
      intro y hy
      rcases orderedInsert_head_cases r a m with hcase | hcase
      · rw [hcase] at hy
        simp only [Option.mem_def, Option.some.injEq] at hy
        rw [← hy]
        exact (htot a b).resolve_left hr
      · rw [hcase] at hy
        exact (List.chain'_cons'.mp h).1 y hy

theorem chain'_insertionSort {α : Type} (r : α → α → Prop) [DecidableRel r]
    (htot : ∀ x y, r x y ∨ r y x) :
    ∀ l : List α, (List.insertionSort r l).Chain' r
  | [] => List.chain'_nil
  | a :: l => by
    rw [List.insertionSort]
    exact chain'_orderedInsert r htot a _ (chain'_insertionSort r htot l)

theorem insertionSort_eq_self_of_chain' {α : Type} (r : α → α → Prop) [DecidableRel r] :
    ∀ l : List α, l.Chain' r → List.insertionSort r l = l
  | [], _ => rfl
  | a :: l, h => by
    rw [List.insertionSort, insertionSort_eq_self_of_chain' r l h.tail]
    cases l with
    | nil => rfl
    | cons b m =>
      have hab : r a b := (List.chain'_cons.mp h).1
      simp [List.orderedInsert, hab]

/-- Re-sorting an already sorted list is the identity, for any total
comparator relation (transitivity is not needed). -/
theorem insertionSort_idem {α : Type} (r : α → α → Prop) [DecidableRel r]
    (htot : ∀ x y : α, r x y ∨ r y x) (l : List α) :
    List.insertionSort r (List.insertionSort r l) = List.insertionSort r l :=
  insertionSort_eq_self_of_chain' r _ (chain'_insertionSort r htot l)

theorem sortData_idem (S : List Sorter) (l : List Row) :
    sortData S (sortData S l) = sortData S l :=
  insertionSort_idem (rowLe S) (rowLe_total S) l

theorem sortData_perm (S : List Sorter) (l : List Row) : List.Perm (sortData S l) l :=
  List.perm_insertionSort (rowLe S) l

theorem mem_enumFrom_le {α : Type} :
    ∀ {l : List α} {i : Nat} {p : Nat × α}, p ∈ l.enumFrom i → i ≤ p.1
  | [], _, _, h => by cases h
  | a :: l, i, p, h => by
    rw [List.enumFrom_cons] at h
    rcases List.mem_cons.mp h with h | h
    · rw [h]
    · have := mem_enumFrom_le h
      omega

theorem map_snd_orderedInsert (S : List Sorter) (i : Nat) (a : Row) :
    ∀ m : List (Nat × Row), (∀ p ∈ m, i < p.1) →
      (List.orderedInsert (rowLeIdx S) (i, a) m).map Prod.snd =
        List.orderedInsert (rowLe S) a (m.map Prod.snd)
  | [], _ => rfl
  | (j, b) :: m, hm => by
    have hij : i < j := hm (j, b) (List.mem_cons_self _ _)
    have hiff : rowLeIdx S (i, a) (j, b) ↔ rowLe S a b := by
      unfold rowLeIdx rowLe
      dsimp only
      constructor
      · intro h
        rcases h with h | ⟨h, _⟩ <;> omega
      · intro h
        rcases lt_or_eq_of_le h with h2 | h2
        · exact Or.inl h2
        · exact Or.inr ⟨h2, Nat.le_of_lt hij⟩
    by_cases h : rowLeIdx S (i, a) (j, b)
    · have h2 : rowLe S a b := hiff.mp h
      simp [List.orderedInsert, h, h2]
    · have h2 : ¬ rowLe S a b := fun hh => h (hiff.mpr hh)
      simp only [List.orderedInsert, if_neg h, if_neg h2, List.map_cons]
      rw [map_snd_orderedInsert S i a m (fun p hp => hm p (List.mem_cons_of_mem _ hp))]

theorem insertionSort_enumFrom (S : List Sorter) :
    ∀ (l : List Row) (i : Nat),
      (List.insertionSort (rowLeIdx S) (l.enumFrom i)).map Prod.snd =
        List.insertionSort (rowLe S) l
  | [], _ => rfl
  | a :: l, i => by
    rw [List.enumFrom_cons, List.insertionSort, List.insertionSort]
    have hm : ∀ p ∈ List.insertionSort (rowLeIdx S) (l.enumFrom (i + 1)), i < p.1 := by
      intro p hp
      have hp2 : p ∈ l.enumFrom (i + 1) :=
        (List.perm_insertionSort (rowLeIdx S) (l.enumFrom (i + 1))).mem_iff.mp hp
      have := mem_enumFrom_le hp2
      omega
    rw [map_snd_orderedInsert S i a _ hm, insertionSort_enumFrom S l (i + 1)]

/-- The comparator sort is stable: it coincides with the reference stable
sort that breaks comparator ties by original position. -/
theorem sortData_eq_stableSortSpec (S : List Sorter) (l : List Row) :
    sortData S l = stableSortSpec S l := by
  unfold stableSortSpec sortData List.enum
  exact (insertionSort_enumFrom S l 0).symm

/-- C5 (confirmed).  For every recompute cycle the virtual tier is a
permutation of the filtered tier; the filtered tier itself is not
reordered by the sort stage (a cycle whose filter stage is memoized
leaves `filtered` untouched even though `virtual` is rebuilt); applying
the same sort specification to an already sorted tier is the identity;
the sort is stable (it equals the reference stable sort that breaks
comparator ties by original position); and the multi-key comparator
compares keys in specification order — ties fall through to the next
key, the first non-equal key decides with `-1`/`1` per its asc/desc
flag, and an exhausted specification yields `0`. -/
theorem c5_theorem :
    (∀ (ff : String → List Row → Except Unit (List Row)) (s : TState),
        List.Perm (updateData ff s).virtual (updateData ff s).filtered) ∧
    (∀ (ff : String → List Row → Except Unit (List Row)) (s : TState),
        s.lastFilter = jsTrim s.filterText → (updateData ff s).filtered = s.filtered) ∧
    (∀ (S : List Sorter) (l : List Row), sortData S (sortData S l) = sortData S l) ∧
    (∀ (S : List Sorter) (l : List Row), sortData S l = stableSortSpec S l) ∧
    (∀ (k ord : String) (rest : List Sorter) (a b : Row),
        cmpRows [] a b = 0 ∧
        (jvLtVV (rowGet a k) (rowGet b k) = false →
          jvLtVV (rowGet b k) (rowGet a k) = false →
          cmpRows (⟨k, ord⟩ :: rest) a b = cmpRows rest a b) ∧
        (jvLtVV (rowGet a k) (rowGet b k) = true →
          cmpRows (⟨k, ord⟩ :: rest) a b =
            (if (if ord = "" then "asc" else ord) = "asc" then -1 else 1)) ∧
        (jvLtVV (rowGet b k) (rowGet a k) = true →
          jvLtVV (rowGet a k) (rowGet b k) = false →
          cmpRows (⟨k, ord⟩ :: rest) a b =
            (if (if ord = "" then "asc" else ord) = "asc" then 1 else -1))) := by
  refine ⟨?perm, ?memo, ?idem, ?stable, ?cmp⟩
  · intro ff s
    unfold updateData
    dsimp only
    split
    · exact List.Perm.refl _
    · exact sortData_perm _ _
  · intro ff s h
    unfold updateData updateDataFilterStage
    dsimp only
    rw [if_neg (fun hne => hne h)]
  · exact sortData_idem
  · exact sortData_eq_stableSortSpec
  · intro k ord rest a b
    refine ⟨rfl, ?t1, ?t2, ?t3⟩
    · intro h1 h2
      rw [cmpRows]
      simp only [h1, h2, Bool.false_eq_true, reduceIte]
    · intro h1
      rw [cmpRows]
      simp only [h1, reduceIte]
    · intro h1 h2
      rw [cmpRows]
      simp only [h1, h2, Bool.false_eq_true, reduceIte]

/-- A one-row table state whose memoization entry matches its filter
text, used to witness the memoized-cycle clause of C5. -/
def c5State : TState := {
  filterText := "x > 0", sort_by := [⟨"x", "desc"⟩], page := 0, page_size := 10,
  row_index_key := "row_index", selected_rows := [], selected_columns := [],
  columns_original := [⟨"x", "x", true, true, "default", "default"⟩],
  columns_virtual := [⟨"x", "x", true, true, "default", "default"⟩],
  format_namespace := "default", format := "default",
  original := [[("x", JVal.num (jint 2))], [("x", JVal.num (jint 1))]],
  filtered := [[("x", JVal.num (jint 2))], [("x", JVal.num (jint 1))]],
  virtual := [], lastFilter := "x > 0", invalid := false,
  pendingConfigChange := false, pendingHeaderChange := false }

/-- C5 witness: the comparator clauses and the memoized-cycle clause of
the theorem applied at concrete inputs. -/
theorem c5_witness :
    cmpRows [⟨"k", "desc"⟩] [("k", JVal.num (jint 1))] [("k", JVal.num (jint 2))] =
      (if (if "desc" = "" then "asc" else "desc") = "asc" then -1 else 1) ∧
    (updateData defaultFilter c5State).filtered = c5State.filtered :=
  ⟨((c5_theorem.2.2.2.2 "k" "desc" [] [("k", JVal.num (jint 1))]
      [("k", JVal.num (jint 2))]).2.2.1 (by decide)),
    c5_theorem.2.1 defaultFilter c5State (by decide)⟩

/-- C6 (corrected).  Scenario A evaluates exactly as claimed; any token
count other than three is a failure (zero tokens model the `TypeError`
from reading `length` on the `null` returned by `match`); and an
operator outside `> >= < <= = == != !==` is a failure whenever the
dataset is nonempty.  With an empty dataset the operator check sits
inside the per-row callback that never runs, so an unknown operator is
not a failure there (see the counterexample). -/
theorem c6_theorem :
    defaultFilter "Percentage > .6"
        [[("Name", JVal.str "a"), ("Percentage", JVal.num ⟨5, 10⟩)],
         [("Name", JVal.str "b"), ("Percentage", JVal.num ⟨99, 100⟩)]] =
      Except.ok [[("Name", JVal.str "b"), ("Percentage", JVal.num ⟨99, 100⟩)]] ∧
    (∀ (f : String) (data : List Row), (jsTokens f).length ≠ 3 →
      defaultFilter f data = Except.error ()) ∧
    (∀ (f key op value : String) (r : Row) (rs : List Row),
      jsTokens f = [key, op, value] →
      op ∉ [">", ">=", "<", "<=", "=", "==", "!=", "!=="] →
      defaultFilter f (r :: rs) = Except.error ()) := by
  refine ⟨by decide, ?count, ?op⟩
  · intro f data h
    rw [defaultFilter]
    rcases hT : jsTokens f with _ | ⟨a, tl⟩
    · rfl
    · rcases tl with _ | ⟨b, tl2⟩
      · rfl
      · rcases tl2 with _ | ⟨c, tl3⟩
        · rfl
        · rcases tl3 with _ | ⟨d, tl4⟩
          · rw [hT] at h
            simp at h
          · rfl
  · intro f key op value r rs hT hop
    rw [defaultFilter, hT]
    have hop2 : evalOp op (rowGet r (stripQuotes key)) value = Except.error () := by
      simp only [List.mem_cons, List.not_mem_nil, or_false, not_or] at hop
      obtain ⟨n1, n2, n3, n4, n5, n6, n7, n8⟩ := hop
      rw [evalOp]
      simp [n1, n2, n3, n4, n5, n6, n7, n8]
    simp only [filterRows]
    rw [hop2]

/-- C6 counterexample: the filter text `a ?? b` has three tokens with the
unknown operator `??`, yet on an empty dataset the default filter routine
succeeds with `[]` instead of failing. -/
theorem c6_counterexample :
    jsTokens "a ?? b" = ["a", "??", "b"] ∧
      "??" ∉ [">", ">=", "<", "<=", "=", "==", "!=", "!=="] ∧
      defaultFilter "a ?? b" [] = Except.ok [] := by decide

/-- C6 witness: a two-token filter fails on any dataset, and an unknown
operator fails on a nonempty dataset. -/
theorem c6_witness :
    defaultFilter "a b" [] = Except.error () ∧
      defaultFilter "x ?? 1" [[("x", JVal.num (jint 1))]] = Except.error () :=
  ⟨c6_theorem.2.1 "a b" [] (by decide),
    c6_theorem.2.2 "x ?? 1" "x" "??" "1" [("x", JVal.num (jint 1))] []
      (by decide) (by decide)⟩

/-! ### Projection lemmas for the recompute cycle -/

theorem updateColumns_true_proj (t : TState) :
    (updateColumns true t).filtered = t.filtered ∧
    (updateColumns true t).invalid = t.invalid ∧
    (updateColumns true t).selected_rows = t.selected_rows ∧
    (updateColumns true t).page = t.page ∧
    (updateColumns true t).pendingConfigChange = t.pendingConfigChange :=
  ⟨rfl, rfl, rfl, rfl, rfl⟩

theorem page_ite (c : Prop) [Decidable c] (x y : TState) (hx : x.page = y.page) :
    (if c then x else y).page = y.page := by
  split
  · exact hx
  · rfl

theorem updateColumns_page (o : Bool) (t : TState) : (updateColumns o t).page = t.page := by
  cases o
  · unfold updateColumns
    dsimp only
    exact page_ite _ _ _ rfl
  · rfl

theorem updateColumns_false_not_preserved (t : TState)
    (h : ∀ r, t.filtered.head? = some r → rowGet r t.row_index_key = none) :
    (updateColumns false t).selected_rows = [] ∧
      (updateColumns false t).pendingConfigChange = true := by
  unfold updateColumns
  cases hf : t.filtered with
  | nil => simp [hf]
  | cons first rest =>
    have hr : rowGet first t.row_index_key = none := h first (by rw [hf]; rfl)
    simp [hf, hr]

theorem updateData_proj (ff : String → List Row → Except Unit (List Row)) (s : TState) :
    (updateData ff s).filtered = (updateDataFilterStage ff s).filtered ∧
    (updateData ff s).invalid = (updateDataFilterStage ff s).invalid ∧
    (updateData ff s).selected_rows = (updateDataFilterStage ff s).selected_rows ∧
    (updateData ff s).page = (updateDataFilterStage ff s).page ∧
    (updateData ff s).pendingConfigChange = (updateDataFilterStage ff s).pendingConfigChange ∧
    (updateData ff s).lastFilter = (updateDataFilterStage ff s).lastFilter :=
  ⟨rfl, rfl, rfl, rfl, rfl, rfl⟩

theorem stage_empty (ff : String → List Row → Except Unit (List Row)) (s : TState)
    (h1 : s.lastFilter ≠ jsTrim s.filterText) (h2 : jsTrim s.filterText = "") :
    updateDataFilterStage ff s =
      (let s1 := updateColumns true { s with filtered := s.original, invalid := false }
       { (if s.filtered.length ≠ s1.filtered.length then
            { s1 with page := 0, pendingConfigChange := true } else s1) with
          lastFilter := s.filterText }) := by
  unfold updateDataFilterStage
  dsimp only
  rw [if_pos h1, if_pos h2]

theorem stage_ok (ff : String → List Row → Except Unit (List Row)) (s : TState)
    (rows : List Row)
    (h1 : s.lastFilter ≠ jsTrim s.filterText) (h2 : jsTrim s.filterText ≠ "")
    (h3 : ff (jsTrim s.filterText) s.original = Except.ok rows) :
    updateDataFilterStage ff s =
      (let s1 := updateColumns false { s with filtered := rows, invalid := false }
       { (if s.filtered.length ≠ s1.filtered.length then
            { s1 with page := 0, pendingConfigChange := true } else s1) with
          lastFilter := jsTrim s.filterText }) := by
  unfold updateDataFilterStage
  dsimp only
  rw [if_pos h1, if_neg h2, h3]

theorem stage_error (ff : String → List Row → Except Unit (List Row)) (s : TState)
    (h1 : s.lastFilter ≠ jsTrim s.filterText) (h2 : jsTrim s.filterText ≠ "")
    (h3 : ff (jsTrim s.filterText) s.original = Except.error ()) :
    updateDataFilterStage ff s =
      (let s1 := updateColumns true { s with filtered := s.original, invalid := true }
       { (if s.filtered.length ≠ s1.filtered.length then
            { s1 with page := 0, pendingConfigChange := true } else s1) with
          lastFilter := "" }) := by
  unfold updateDataFilterStage
  dsimp only
  rw [if_pos h1, if_neg h2, h3]

/-- C1 (corrected).  When the configured filter routine throws/rejects on
a nonblank filter text, the recompute completes (the model is a total
function: no exception propagates), the filtered tier becomes a copy of
the original tier, identity is treated as trivially preserved (the row
selection set survives untouched), the view is flagged invalid, and the
memo entry is cleared.  The original claim also covered text that "fails
to parse under the default grammar"; that is narrower than it sounds: an
unknown operator only throws inside the per-row callback, so over an
empty dataset such text succeeds vacuously and the invalid flag is NOT
set (see the counterexample). -/
theorem c1_theorem (ff : String → List Row → Except Unit (List Row)) (s : TState)
    (h1 : s.lastFilter ≠ jsTrim s.filterText)
    (h2 : jsTrim s.filterText ≠ "")
    (h3 : ff (jsTrim s.filterText) s.original = Except.error ()) :
    (updateData ff s).filtered = s.original ∧
    (updateData ff s).invalid = true ∧
    (updateData ff s).selected_rows = s.selected_rows ∧
    (updateData ff s).lastFilter = "" := by
  obtain ⟨e1, e2, e3, _, _, e6⟩ := updateData_proj ff s
  rw [e1, e2, e3, e6, stage_error ff s h1 h2 h3]
  dsimp only
  refine ⟨?a, ?b, ?c, ?d⟩
  · split <;> rfl
  · split <;> rfl
  · split <;> rfl
  · rfl

/-- The table state of the C1 counterexample: an unknown-operator filter
text arriving over an empty dataset. -/
def c1CexState : TState := {
  filterText := "garbage token count", sort_by := [], page := 3, page_size := 10,
  row_index_key := "row_index", selected_rows := [7], selected_columns := [],
  columns_original := [⟨"x", "x", true, true, "default", "default"⟩],
  columns_virtual := [⟨"x", "x", true, true, "default", "default"⟩],
  format_namespace := "default", format := "default",
  original := [], filtered := [], virtual := [],
  lastFilter := "seed", invalid := false,
  pendingConfigChange := false, pendingHeaderChange := false }

/-- C1 counterexample: `garbage token count` fails the default grammar
(three tokens but the operator `token` is unknown), yet over an empty
dataset the routine resolves successfully, so the view is NOT marked
invalid, and identity is not treated as preserved either (the selection
set is cleared from `[7]` to `[]`). -/
theorem c1_counterexample :
    jsTokens "garbage token count" = ["garbage", "token", "count"] ∧
      "token" ∉ [">", ">=", "<", "<=", "=", "==", "!=", "!=="] ∧
      (updateData defaultFilter c1CexState).invalid = false ∧
      (updateData defaultFilter c1CexState).selected_rows = [] := by decide

/-- The table state of the C1 witness: the same unparseable filter text
over a nonempty dataset, so the per-row callback throws. -/
def c1WitState : TState := {
  filterText := "garbage token count", sort_by := [], page := 0, page_size := 10,
  row_index_key := "row_index", selected_rows := [4], selected_columns := [],
  columns_original := [⟨"x", "x", true, true, "default", "default"⟩],
  columns_virtual := [⟨"x", "x", true, true, "default", "default"⟩],
  format_namespace := "default", format := "default",
  original := [[("x", JVal.num (jint 1))]], filtered := [[("x", JVal.num (jint 1))]],
  virtual := [], lastFilter := "", invalid := false,
  pendingConfigChange := false, pendingHeaderChange := false }

/-- C1 witness: the amended statement at a throwing filter call. -/
theorem c1_witness :
    (updateData defaultFilter c1WitState).filtered = c1WitState.original ∧
      (updateData defaultFilter c1WitState).invalid = true ∧
      (updateData defaultFilter c1WitState).selected_rows = c1WitState.selected_rows ∧
      (updateData defaultFilter c1WitState).lastFilter = "" :=
  c1_theorem defaultFilter c1WitState (by decide) (by decide) (by decide)

/-- C2 (corrected).  A recompute whose (trimmed) filter text is empty and
whose filter stage actually runs copies the original tier into the
filtered tier (`filtered = D`, the very same rows in the same order, so
positional identity is trivially preserved and row selections survive),
and clears the invalid flag.  However the code does not inject Row
Identity Key values on this path, so "each filtered row's identity value
equals its position in D" fails whenever D's rows do not already carry
the key (see the counterexample). -/
theorem c2_theorem (ff : String → List Row → Except Unit (List Row)) (s : TState)
    (h1 : s.lastFilter ≠ jsTrim s.filterText)
    (h2 : jsTrim s.filterText = "") :
    (updateData ff s).filtered = s.original ∧
    (updateData ff s).invalid = false ∧
    (updateData ff s).selected_rows = s.selected_rows ∧
    (∀ j : Nat, (updateData ff s).filtered.get? j = s.original.get? j) := by
  obtain ⟨e1, e2, e3, _, _, _⟩ := updateData_proj ff s
  have hmain : (updateData ff s).filtered = s.original := by
    rw [e1, stage_empty ff s h1 h2]
    dsimp only
    split <;> rfl
  refine ⟨hmain, ?b, ?c, fun j => by rw [hmain]⟩
  · rw [e2, stage_empty ff s h1 h2]
    dsimp only
    split <;> rfl
  · rw [e3, stage_empty ff s h1 h2]
    dsimp only
    split <;> rfl

/-- The table state of the C2 counterexample and witness: whitespace
filter text over a one-row dataset that carries no Row Identity Key. -/
def c2State : TState := {
  filterText := "   ", sort_by := [], page := 0, page_size := 10,
  row_index_key := "row_index", selected_rows := [5], selected_columns := [],
  columns_original := [⟨"a", "a", true, true, "default", "default"⟩],
  columns_virtual := [⟨"a", "a", true, true, "default", "default"⟩],
  format_namespace := "default", format := "default",
  original := [[("a", JVal.num (jint 1))]], filtered := [],
  virtual := [], lastFilter := "seed", invalid := false,
  pendingConfigChange := false, pendingHeaderChange := false }

/-- C2 counterexample: after an empty-filter recompute the filtered tier
equals the dataset, but its first row carries NO Row Identity Key value
at all, so the key's value does not equal the row's position 0. -/
theorem c2_counterexample :
    (updateData defaultFilter c2State).filtered = c2State.original ∧
      rowGet (((updateData defaultFilter c2State).filtered).headD [])
          c2State.row_index_key = none := by decide

/-- C2 witness: the amended statement at the whitespace-filter state. -/
theorem c2_witness :
    (updateData defaultFilter c2State).filtered = c2State.original ∧
      (updateData defaultFilter c2State).invalid = false ∧
      (updateData defaultFilter c2State).selected_rows = c2State.selected_rows ∧
      (∀ j : Nat, (updateData defaultFilter c2State).filtered.get? j =
        c2State.original.get? j) :=
  c2_theorem defaultFilter c2State (by decide) (by decide)

/-- C7 (corrected).  On a filter pass where the configured routine runs
and succeeds (nonblank filter text, no fallback) and the resulting
filtered tier's first row does not already carry the Row Identity Key
(or the tier is empty), the row selection set becomes empty — for every
prior selection set — and the configuration dirty flag is set.  The
original claim's precondition, taken literally ("the first row of the
filtered tier does not carry the key"), also covers empty-filter and
fallback passes, where the code treats identity as trivially preserved
and does NOT clear the selection (see the counterexample). -/
theorem c7_theorem (ff : String → List Row → Except Unit (List Row)) (s : TState)
    (rows : List Row)
    (h1 : s.lastFilter ≠ jsTrim s.filterText)
    (h2 : jsTrim s.filterText ≠ "")
    (h3 : ff (jsTrim s.filterText) s.original = Except.ok rows)
    (h4 : ∀ r, rows.head? = some r → rowGet r s.row_index_key = none) :
    (updateData ff s).selected_rows = [] ∧
      (updateData ff s).pendingConfigChange = true := by
  obtain ⟨_, _, e3, _, e5, _⟩ := updateData_proj ff s
  have hcols := updateColumns_false_not_preserved
    { s with filtered := rows, invalid := false } h4
  constructor
  · rw [e3, stage_ok ff s rows h1 h2 h3]
    dsimp only
    split
    · exact hcols.1
    · exact hcols.1
  · rw [e5, stage_ok ff s rows h1 h2 h3]
    dsimp only
    split
    · rfl
    · exact hcols.2

/-- The table state of the C7 counterexample: an empty-filter pass over a
dataset whose rows carry no Row Identity Key. -/
def c7CexState : TState := {
  filterText := "", sort_by := [], page := 0, page_size := 10,
  row_index_key := "row_index", selected_rows := [3], selected_columns := [],
  columns_original := [⟨"a", "a", true, true, "default", "default"⟩],
  columns_virtual := [⟨"a", "a", true, true, "default", "default"⟩],
  format_namespace := "default", format := "default",
  original := [[("a", JVal.num (jint 1))]], filtered := [],
  virtual := [], lastFilter := "seed", invalid := false,
  pendingConfigChange := false, pendingHeaderChange := false }

/-- C7 counterexample: after an empty-filter pass the first filtered row
does not carry the Row Identity Key — the claim's literal precondition —
yet the prior selection set `[3]` survives instead of becoming empty. -/
theorem c7_counterexample :
    rowGet (((updateData defaultFilter c7CexState).filtered).headD [])
        c7CexState.row_index_key = none ∧
      (updateData defaultFilter c7CexState).selected_rows = [3] := by decide

/-- The table state of the C7 witness: a successful nonblank filter pass
whose result rows carry no Row Identity Key. -/
def c7WitState : TState := {
  filterText := "x > 0", sort_by := [], page := 0, page_size := 10,
  row_index_key := "row_index", selected_rows := [9, 12], selected_columns := [],
  columns_original := [⟨"x", "x", true, true, "default", "default"⟩],
  columns_virtual := [⟨"x", "x", true, true, "default", "default"⟩],
  format_namespace := "default", format := "default",
  original := [[("x", JVal.num (jint 1))]], filtered := [[("x", JVal.num (jint 1))]],
  virtual := [], lastFilter := "", invalid := false,
  pendingConfigChange := false, pendingHeaderChange := false }

/-- C7 witness: the amended statement at the successful filter pass. -/
theorem c7_witness :
    (updateData defaultFilter c7WitState).selected_rows = [] ∧
      (updateData defaultFilter c7WitState).pendingConfigChange = true :=
  c7_theorem defaultFilter c7WitState [[("x", JVal.num (jint 1))]]
    (by decide) (by decide) (by decide)
    (by
      intro r hr
      have hh := Option.some.inj hr
      rw [← hh]
      decide)

/-- C10 (confirmed).  On a filter pass that actually runs (the memoized
filter differs from the trimmed filter text): if the new filtered tier's
length differs from the previous filtered tier's length the page is
reset to 0 and the configuration dirty flag is set, even though no
pagination event occurred; if the length is unchanged the page number
stays as it was. -/
theorem c10_theorem (ff : String → List Row → Except Unit (List Row)) (s : TState)
    (h1 : s.lastFilter ≠ jsTrim s.filterText) :
    ((updateData ff s).filtered.length ≠ s.filtered.length →
      (updateData ff s).page = 0 ∧ (updateData ff s).pendingConfigChange = true) ∧
    ((updateData ff s).filtered.length = s.filtered.length →
      (updateData ff s).page = s.page) := by
  obtain ⟨e1, _, _, e4, e5, _⟩ := updateData_proj ff s
  rw [e1, e4, e5]
  by_cases h2 : jsTrim s.filterText = ""
  · rw [stage_empty ff s h1 h2]
    dsimp only
    split
    · rename_i hcond
      exact ⟨fun _ => ⟨rfl, rfl⟩, fun h => absurd h.symm hcond⟩
    · rename_i hcond
      exact ⟨fun h => ((hcond (fun heq => h heq.symm)).elim),
        fun _ => updateColumns_page _ _⟩
  · cases hff : ff (jsTrim s.filterText) s.original with
    | ok rows =>
      rw [stage_ok ff s rows h1 h2 hff]
      dsimp only
      split
      · rename_i hcond
        exact ⟨fun _ => ⟨rfl, rfl⟩, fun h => absurd h.symm hcond⟩
      · rename_i hcond
        exact ⟨fun h => ((hcond (fun heq => h heq.symm)).elim),
          fun _ => updateColumns_page _ _⟩
    | error u =>
      cases u
      rw [stage_error ff s h1 h2 hff]
      dsimp only
      split
      · rename_i hcond
        exact ⟨fun _ => ⟨rfl, rfl⟩, fun h => absurd h.symm hcond⟩
      · rename_i hcond
        exact ⟨fun h => ((hcond (fun heq => h heq.symm)).elim),
          fun _ => updateColumns_page _ _⟩

/-- The table state of the first C10 witness: a filter pass that shrinks
the filtered tier from one row to none. -/
def c10ShrinkState : TState := {
  filterText := "x > 5", sort_by := [], page := 3, page_size := 10,
  row_index_key := "row_index", selected_rows := [], selected_columns := [],
  columns_original := [⟨"x", "x", true, true, "default", "default"⟩],
  columns_virtual := [⟨"x", "x", true, true, "default", "default"⟩],
  format_namespace := "default", format := "default",
  original := [[("x", JVal.num (jint 1))]], filtered := [[("x", JVal.num (jint 1))]],
  virtual := [], lastFilter := "", invalid := false,
  pendingConfigChange := false, pendingHeaderChange := false }

/-- The table state of the second C10 witness: a filter pass that leaves
the filtered tier's length unchanged. -/
def c10KeepState : TState := {
  filterText := "x > 0", sort_by := [], page := 3, page_size := 10,
  row_index_key := "row_index", selected_rows := [], selected_columns := [],
  columns_original := [⟨"x", "x", true, true, "default", "default"⟩],
  columns_virtual := [⟨"x", "x", true, true, "default", "default"⟩],
  format_namespace := "default", format := "default",
  original := [[("x", JVal.num (jint 1))]], filtered := [[("y", JVal.num (jint 2))]],
  virtual := [], lastFilter := "", invalid := false,
  pendingConfigChange := false, pendingHeaderChange := false }

/-- C10 witness: a shrinking pass resets the page to 0 and raises the
config flag; a length-preserving pass leaves the page at 3. -/
theorem c10_witness :
    ((updateData defaultFilter c10ShrinkState).page = 0 ∧
      (updateData defaultFilter c10ShrinkState).pendingConfigChange = true) ∧
      (updateData defaultFilter c10KeepState).page = c10KeepState.page :=
  ⟨(c10_theorem defaultFilter c10ShrinkState (by decide)).1 (by decide),
    (c10_theorem defaultFilter c10KeepState (by decide)).2 (by decide)⟩

end DashTable
